import Mathlib

/-!
Shallow embedding of the poly_sport market-monitoring and order-execution
engine (src/app/services/polymarket.py, src/app/services/trader.py,
src/app/models.py, src/app/config.py).

Modelling conventions: prices, sizes and USDC amounts are rationals;
timestamps are rationals (seconds). External collaborators (the exchange,
the database, the notification sink) are modelled as oracle inputs, and a
stateful operation returns its new state together with an explicit list of
the effects it performed. Python exceptions raised by a collaborator are
modelled as oracle flags; the surrounding try/except of the source then
determines how much of the operation commits.
-/

namespace PolySport

/-- Order side, from app/models.py OrderSide. -/
inductive OrderSide
  | buy
  | sell
deriving Repr, DecidableEq

/-- Order status, from app/models.py OrderStatus (opn stands for "open"). -/
inductive OrderStatus
  | pending
  | opn
  | filled
  | cancelled
  | failed
deriving Repr, DecidableEq

/-- Position status, from app/models.py PositionStatus (opn is "open"). -/
inductive PositionStatus
  | opn
  | closed
deriving Repr, DecidableEq

/-- Trigger type, from app/models.py TriggerType. -/
inductive TriggerType
  | entry
  | stop_loss
deriving Repr, DecidableEq

/-- Order record, from app/models.py Order. -/
structure Order where
  id : String := ""
  market_id : String
  token_id : String := ""
  side : OrderSide
  price : ℚ
  size : ℚ
  amount : ℚ := 0
  status : OrderStatus := .pending
  filled_size : ℚ := 0
  trigger_type : Option TriggerType := none
  error_message : Option String := none
deriving Repr, DecidableEq

/-- Position record, from app/models.py Position. Timestamps in seconds. -/
structure Position where
  id : String := ""
  market_id : String
  token_id : String := ""
  market_question : String := ""
  size : ℚ := 0
  avg_price : ℚ := 0
  current_price : ℚ := 0
  cost : ℚ := 0
  value : ℚ := 0
  unrealized_pnl : ℚ := 0
  realized_pnl : ℚ := 0
  status : PositionStatus := .opn
  stop_loss_price : ℚ := 0
  stop_loss_triggered : Bool := false
  opened_at : ℚ := 0
  closed_at : Option ℚ := none
deriving Repr, DecidableEq

/-- Market value produced by the feed, from app/models.py Market. -/
structure Market where
  id : String
  condition_id : String := ""
  question : String
  slug : String := ""
  yes_price : ℚ := 0
  no_price : ℚ := 0
  category : String := ""
  end_date : Option ℚ := none
  volume : ℚ := 0
  liquidity : ℚ := 0
  token_id : String := ""
  outcome : String := "Yes"
deriving Repr, DecidableEq

/-- Market price snapshot, from app/models.py MarketPrice. -/
structure MarketPrice where
  market_id : String
  token_id : String
  price : ℚ
  bid : ℚ := 0
  ask : ℚ := 0
  spread : ℚ := 0
deriving Repr, DecidableEq

/-- Account balance, from app/models.py Balance. -/
structure Balance where
  available : ℚ := 0
  locked : ℚ := 0
  total : ℚ := 0
deriving Repr, DecidableEq

/-- Monitoring state of one market, from app/models.py MonitoredMarket. -/
structure MonitoredMarket where
  market_id : String
  token_id : String
  market_question : String
  entry_price : ℚ
  stop_loss_price : ℚ
  current_price : ℚ := 0
  is_monitoring : Bool := true
  has_position : Bool := false
  position_size : ℚ := 0
  last_check : ℚ := 0
  created_at : ℚ := 0
deriving Repr, DecidableEq

/-- Trading strategy configuration, from app/config.py TradingConfig, with
the source defaults. -/
structure TradingConfig where
  entry_price : ℚ := 90
  stop_loss_price : ℚ := 85
  order_amount : ℚ := 10
  max_position_amount : ℚ := 100
  time_filter_hours : ℚ := 1
  scan_interval : ℚ := 30
  price_check_interval : ℚ := 5
  max_daily_loss : ℚ := 50
  max_open_positions : ℕ := 5
  auto_trading_enabled : Bool := false
deriving Repr, DecidableEq

/-! Price-scale conversions (polymarket.py). -/

/-- Price conversion used by place_order (line 613): 0-100 display scale
down to the 0-1 protocol scale. -/
def price_to_decimal (p : ℚ) : ℚ := p / 100

/-- Price conversion used by get_market_price (line 474): 0-1 protocol
scale back up to the 0-100 display scale. -/
def decimal_to_display (p : ℚ) : ℚ := p * 100

/-! Exchange order submission (polymarket.py place_order). -/

/-- Fields of an exchange order response, after place_order has unwrapped
the status/data envelope; an absent key is none. id_field is the
payload key named "id". -/
structure RespData where
  orderID : Option String := none
  id_field : Option String := none
  market : Option String := none
  price : Option ℚ := none
  avgPrice : Option ℚ := none
  size : Option ℚ := none
  filledSize : Option ℚ := none
deriving Repr, DecidableEq

/-- Order id extraction: data.get("orderID", data.get("id", "")). -/
def RespData.order_id_of (d : RespData) : String :=
  d.orderID.getD (d.id_field.getD "")

/-- Exchange response to an order submission: a falsy response, an error
payload, or a success payload. -/
inductive ClobResponse
  | no_response
  | error_resp (msg : String)
  | success (data : RespData)
deriving Repr, DecidableEq

/-- Result of place_order: whether a submission reached the exchange
(a post call was made), and the returned Order (none models Python None). -/
structure PlaceResult where
  submitted : Bool
  order : Option Order
deriving Repr, DecidableEq

/-- Embedding of PolymarketClient.place_order. The clob_initialized flag
models self._clob_client being set; fresh_id models the uuid4 fallback of
the market-order branch; resp is the exchange response the submission
would receive. Both validation branches and both order kinds follow the
source line by line. -/
def place_order (clob_initialized : Bool) (token_id : String) (side : OrderSide)
    (price amount : ℚ) (market_order : Bool) (resp : ClobResponse)
    (fresh_id : String) : PlaceResult :=
  if ¬ clob_initialized then ⟨false, none⟩
  else if token_id = "" then ⟨false, none⟩
  else if amount ≤ 0 then ⟨false, none⟩
  else if market_order then
    match resp with
    | .no_response => ⟨true, none⟩
    | .error_resp _ => ⟨true, none⟩
    | .success d =>
        let raw_id := d.order_id_of
        let order_id := if raw_id = "" then fresh_id else raw_id
        let actual_price := (d.price.getD (d.avgPrice.getD 0)) * 100
        let actual_size := d.size.getD (d.filledSize.getD 0)
        let actual_amount :=
          if actual_price > 0 then actual_size * actual_price / 100 else amount
        ⟨true, some
          { id := order_id
            market_id := d.market.getD ""
            token_id := token_id
            side := side
            price := if actual_price > 0 then actual_price else price
            size := if actual_size > 0 then actual_size else 0
            amount := if actual_amount > 0 then actual_amount else amount
            status := .opn }⟩
  else
    if price ≤ 0 ∨ price ≥ 100 then ⟨false, none⟩
    else
      let price_decimal := price_to_decimal price
      if price_decimal ≤ 0 ∨ price_decimal ≥ 1 then ⟨false, none⟩
      else
        let size := amount / price_decimal
        if size ≤ 0 then ⟨false, none⟩
        else
          match resp with
          | .no_response => ⟨true, none⟩
          | .error_resp _ => ⟨true, none⟩
          | .success d =>
              ⟨true, some
                { id := d.order_id_of
                  market_id := d.market.getD ""
                  token_id := token_id
                  side := side
                  price := price
                  size := size
                  amount := amount
                  status := .opn }⟩

/-! Order-book price lookup (polymarket.py get_market_price). -/

/-- Order-book response of GET /book: market id plus bid and ask price
levels, best level first, on the 0-1 protocol scale. -/
structure BookResponse where
  market : String := ""
  bids : List ℚ
  asks : List ℚ
deriving Repr, DecidableEq

/-- Embedding of PolymarketClient.get_market_price. resp none models a
non-200 status or a request failure. Python float truthiness (0.0 falsy)
becomes explicit nonzero tests. -/
def get_market_price (token_id : String) (resp : Option BookResponse) :
    Option MarketPrice :=
  match resp with
  | none => none
  | some data =>
      let best_bid : ℚ := match data.bids with | [] => 0 | b :: _ => b
      let best_ask : ℚ := match data.asks with | [] => 0 | a :: _ => a
      let mid_price : ℚ :=
        if best_bid ≠ 0 ∧ best_ask ≠ 0 then (best_bid + best_ask) / 2
        else if best_bid ≠ 0 then best_bid else best_ask
      some
        { market_id := data.market
          token_id := token_id
          price := decimal_to_display mid_price
          bid := best_bid * 100
          ask := best_ask * 100
          spread := if best_ask ≠ 0 ∧ best_bid ≠ 0 then (best_ask - best_bid) * 100 else 0 }

/-! Market feed admission (polymarket.py get_sport_markets). -/

/-- Token field of the Gamma feed: either a native JSON array (none for a
JSON null) or a JSON-encoded string whose payload is the parse result
(none when malformed). -/
inductive JsonishList
  | native (xs : Option (List String))
  | encoded (parsed : Option (List String))
deriving Repr, DecidableEq

/-- Tolerant decoding of a feed list field, as in get_sport_markets: a
malformed encoded string and a null native field both decode to []. -/
def decode_tokens : JsonishList → List String
  | .native none => []
  | .native (some xs) => xs
  | .encoded none => []
  | .encoded (some xs) => xs

/-- Raw market entry as read from the Gamma events feed. end_date is the
parsed endDate in seconds: none when the field is missing or unparseable
(the source leaves its end_date local as None in both cases); closed is
m.get("closed", False). -/
structure RawMarket where
  closed : Bool
  end_date : Option ℚ
  clobTokenIds : JsonishList
deriving Repr, DecidableEq

/-- Admission decision of get_sport_markets for one raw market: the closed
check, the [now - 1 hour, now + hours_filter] window on the parsed
endDate, and the two-token check, in source order. Times are seconds, so
the one-hour grace window is 3600. -/
def admits_market (now hours_filter : ℚ) (m : RawMarket) : Bool :=
  if m.closed then false
  else
    match m.end_date with
    | none => false
    | some t =>
        if t < now - 3600 then false
        else if t > now + hours_filter * 3600 then false
        else if (decode_tokens m.clobTokenIds).length < 2 then false
        else true

/-! Trading scheduler state (trader.py TradingService). -/

/-- Effects performed against external collaborators, in execution order. -/
inductive Effect
  | place_order_call (token_id : String) (side : OrderSide) (price amount : ℚ)
      (market_order : Bool)
  | save_order (o : Order)
  | save_position (p : Position)
  | record_trade (order_id market_id side_label : String) (price size amount pnl : ℚ)
  | notify_buy (question : String) (price amount : ℚ) (order_id : String)
  | notify_sell (question : String) (price amount pnl : ℚ)
  | notify_stop_loss (question : String) (price avg_price loss : ℚ)
  | notify_price_alert (question : String) (price : ℚ) (kind : String)
  | notify_error (msg : String)
deriving Repr, DecidableEq

/-- In-memory scheduler state: the monitored-market dict (insertion
order), the processed-market set, and the running daily PnL. -/
structure TraderState where
  monitored_markets : List (String × MonitoredMarket)
  processed_markets : List String
  daily_pnl : ℚ
deriving Repr, DecidableEq

/-- Dict read: self._monitored_markets.get(k). -/
def dict_get (l : List (String × MonitoredMarket)) (k : String) :
    Option MonitoredMarket :=
  (l.find? (fun p => p.1 == k)).map (fun p => p.2)

/-- Dict write: self._monitored_markets[k] = v (replace or append). -/
def dict_set (l : List (String × MonitoredMarket)) (k : String)
    (v : MonitoredMarket) : List (String × MonitoredMarket) :=
  if (l.find? (fun p => p.1 == k)).isSome then
    l.map (fun p => if p.1 == k then (k, v) else p)
  else l ++ [(k, v)]

/-- In-place mutation of the dict entry at k, when present. -/
def dict_update (l : List (String × MonitoredMarket)) (k : String)
    (f : MonitoredMarket → MonitoredMarket) : List (String × MonitoredMarket) :=
  l.map (fun p => if p.1 == k then (p.1, f p.2) else p)

/-- Set insertion: self._processed_markets.add(x). -/
def set_add (l : List String) (x : String) : List String :=
  if l.contains x then l else l ++ [x]

/-- Sum of position_size * current_price / 100 over the monitored markets
holding a position, as computed in _execute_entry. -/
def position_value_sum (st : TraderState) : ℚ :=
  ((st.monitored_markets.filter (fun p => p.2.has_position)).map
    (fun p => p.2.position_size * p.2.current_price / 100)).sum

/-- Success flags of the fallible database calls inside one operation; a
false flag models that call raising, which the operation's try/except
catches. -/
structure DbFlags where
  save_order_ok : Bool := true
  save_position_ok : Bool := true
  record_trade_ok : Bool := true
deriving Repr, DecidableEq

/-- Oracle for one _execute_entry run: the available balance reported by
get_balance, the exchange response, the uuid fallbacks, and the database
flags. -/
structure EntryOracle where
  available_balance : ℚ
  resp : ClobResponse
  fresh_id : String := ""
  position_id : String := ""
  db : DbFlags := {}
deriving Repr, DecidableEq

/-- Embedding of TradingService._execute_entry. Returns the state after
the run together with the effects performed; a raise from a database call
is caught by the outer handler, which emits the notify_error and returns
with whatever mutations had already been made. -/
def execute_entry (cfg : TradingConfig) (st : TraderState) (market : Market)
    (price : ℚ) (o : EntryOracle) (now : ℚ) : TraderState × List Effect :=
  if o.available_balance < cfg.order_amount then (st, [])
  else
    let current_position_value := position_value_sum st
    if current_position_value + cfg.order_amount > cfg.max_position_amount then (st, [])
    else
      let pr := place_order true market.token_id .buy price cfg.order_amount false
        o.resp o.fresh_id
      let effs := if pr.submitted then
        [Effect.place_order_call market.token_id .buy price cfg.order_amount false]
        else []
      match pr.order with
      | none => (st, effs)
      | some order0 =>
          let order := { order0 with trigger_type := some TriggerType.entry }
          if ¬ o.db.save_order_ok then (st, effs ++ [.notify_error "entry_failed"])
          else
            let effs := effs ++ [.save_order order]
            let mm1 := dict_update st.monitored_markets market.id
              (fun m => { m with has_position := true, position_size := order.size })
            let st1 := { st with monitored_markets := mm1 }
            if ¬ o.db.save_position_ok then (st1, effs ++ [.notify_error "entry_failed"])
            else
              let position : Position :=
                { id := o.position_id
                  market_id := market.id
                  token_id := market.token_id
                  market_question := market.question
                  size := order.size
                  avg_price := price
                  current_price := price
                  cost := cfg.order_amount
                  value := cfg.order_amount
                  stop_loss_price := cfg.stop_loss_price
                  opened_at := now }
              let effs := effs ++ [.save_position position]
              if ¬ o.db.record_trade_ok then (st1, effs ++ [.notify_error "entry_failed"])
              else
                let effs := effs ++
                  [.record_trade order.id market.id "BUY" price order.size cfg.order_amount 0]
                let st2 := { st1 with processed_markets := set_add st1.processed_markets market.id }
                (st2, effs ++ [.notify_buy market.question price cfg.order_amount order.id])

/-- Oracle for one _execute_stop_loss run: the open-position lookup
result, the exchange response, the uuid fallback, and the database flags. -/
structure StopLossOracle where
  position_lookup : Option Position
  resp : ClobResponse
  fresh_id : String := ""
  db : DbFlags := {}
deriving Repr, DecidableEq

/-- Embedding of TradingService._execute_stop_loss. The daily-PnL
accumulation happens right after the order is saved, before the position
is persisted, exactly as in the source. -/
def execute_stop_loss (st : TraderState) (monitored : MonitoredMarket)
    (current_price : ℚ) (o : StopLossOracle) (now : ℚ) : TraderState × List Effect :=
  match o.position_lookup with
  | none => (st, [])
  | some position =>
      let sell_amount := monitored.position_size * current_price / 100
      let pr := place_order true monitored.token_id .sell current_price sell_amount
        false o.resp o.fresh_id
      let effs := if pr.submitted then
        [Effect.place_order_call monitored.token_id .sell current_price sell_amount false]
        else []
      match pr.order with
      | none => (st, effs)
      | some order0 =>
          let order := { order0 with trigger_type := some TriggerType.stop_loss }
          if ¬ o.db.save_order_ok then (st, effs ++ [.notify_error "stop_loss_failed"])
          else
            let effs := effs ++ [.save_order order]
            let pnl := sell_amount - position.cost
            let st1 := { st with daily_pnl := st.daily_pnl + pnl }
            let position1 :=
              { position with
                  status := PositionStatus.closed
                  current_price := current_price
                  value := sell_amount
                  realized_pnl := pnl
                  closed_at := some now
                  stop_loss_triggered := true }
            if ¬ o.db.save_position_ok then (st1, effs ++ [.notify_error "stop_loss_failed"])
            else
              let effs := effs ++ [.save_position position1]
              if ¬ o.db.record_trade_ok then (st1, effs ++ [.notify_error "stop_loss_failed"])
              else
                let effs := effs ++
                  [.record_trade order.id monitored.market_id "SELL" current_price
                    order.size sell_amount pnl]
                let mm2 := dict_update st1.monitored_markets monitored.market_id
                  (fun m => { m with has_position := false, is_monitoring := false })
                let st2 := { st1 with monitored_markets := mm2 }
                (st2, effs ++ [.notify_stop_loss monitored.market_question current_price
                  position.avg_price (if pnl < 0 then |pnl| else -pnl)])

/-- Oracle for one _check_prices iteration on one market: the GET /book
response behind get_market_price, and the stop-loss oracle used when the
stop-loss branch runs. -/
structure MonitorOracle where
  book : Option BookResponse
  sl : StopLossOracle
deriving Repr, DecidableEq

/-- Embedding of the body of TradingService._check_prices for one entry of
the monitored-market dict. -/
def check_price_one (cfg : TradingConfig) (st : TraderState) (market_id : String)
    (o : MonitorOracle) (now : ℚ) : TraderState × List Effect :=
  match dict_get st.monitored_markets market_id with
  | none => (st, [])
  | some monitored =>
      if !monitored.is_monitoring || !monitored.has_position then (st, [])
      else
        match get_market_price monitored.token_id o.book with
        | none => (st, [])
        | some price_data =>
            let current_price := price_data.price
            let monitored1 := { monitored with
              current_price := current_price, last_check := now }
            let mm1 := dict_set st.monitored_markets market_id monitored1
            let st1 := { st with monitored_markets := mm1 }
            if current_price ≤ monitored1.stop_loss_price then
              if cfg.auto_trading_enabled then
                execute_stop_loss st1 monitored1 current_price o.sl now
              else
                (st1, [.notify_price_alert monitored1.market_question current_price
                  "stop_loss"])
            else (st1, [])

/-- Embedding of the body of TradingService._scan_markets for one market
returned by the feed: the entry-price filter, the processed-set check, the
open-position checks, registration, and the auto-trading entry. -/
def scan_market_one (cfg : TradingConfig) (st : TraderState) (market : Market)
    (o : EntryOracle) (now : ℚ) : TraderState × List Effect :=
  let price := market.yes_price * 100
  if price < cfg.entry_price then (st, [])
  else if st.processed_markets.contains market.id then (st, [])
  else if (dict_get st.monitored_markets market.id).any (fun m => m.has_position) then
    (st, [])
  else
    let open_positions := (st.monitored_markets.filter (fun p => p.2.has_position)).length
    if cfg.max_open_positions ≤ open_positions then (st, [])
    else
      let monitored : MonitoredMarket :=
        { market_id := market.id
          token_id := market.token_id
          market_question := market.question
          entry_price := cfg.entry_price
          stop_loss_price := cfg.stop_loss_price
          current_price := price
          last_check := now
          created_at := now }
      let mm1 := dict_set st.monitored_markets market.id monitored
      let st1 := { st with monitored_markets := mm1 }
      if cfg.auto_trading_enabled then execute_entry cfg st1 market price o now
      else (st1, [.notify_price_alert market.question price "entry"])

/-- Oracle for one manual_buy run. -/
structure ManualBuyOracle where
  resp : ClobResponse
  fresh_id : String := ""
  position_id : String := ""
  db : DbFlags := {}
deriving Repr, DecidableEq

/-- Embedding of TradingService.manual_buy. A raise from a database call
is caught and yields None with the mutations already made kept; the
source's except block only logs, so no notification effect is emitted. -/
def manual_buy (cfg : TradingConfig) (st : TraderState)
    (market_id token_id : String) (price amount : ℚ) (market_question : String)
    (market_order : Bool) (o : ManualBuyOracle) (now : ℚ) :
    TraderState × List Effect × Option Order :=
  let pr := place_order true token_id .buy price amount market_order o.resp o.fresh_id
  let effs := if pr.submitted then
    [Effect.place_order_call token_id .buy price amount market_order] else []
  match pr.order with
  | none => (st, effs, none)
  | some order0 =>
      let order := { order0 with trigger_type := some TriggerType.entry }
      if ¬ o.db.save_order_ok then (st, effs, none)
      else
        let effs := effs ++ [.save_order order]
        let monitored : MonitoredMarket :=
          { market_id := market_id
            token_id := token_id
            market_question := market_question
            entry_price := price
            stop_loss_price := cfg.stop_loss_price
            current_price := price
            has_position := true
            position_size := order.size
            last_check := now
            created_at := now }
        let mm1 := dict_set st.monitored_markets market_id monitored
        let st1 := { st with monitored_markets := mm1 }
        if ¬ o.db.save_position_ok then (st1, effs, none)
        else
          let position : Position :=
            { id := o.position_id
              market_id := market_id
              token_id := token_id
              market_question := market_question
              size := order.size
              avg_price := price
              current_price := price
              cost := amount
              value := amount
              stop_loss_price := cfg.stop_loss_price
              opened_at := now }
          let effs := effs ++ [.save_position position]
          if ¬ o.db.record_trade_ok then (st1, effs, none)
          else
            let effs := effs ++
              [.record_trade order.id market_id "BUY" price order.size amount 0]
            (st1, effs ++ [.notify_buy market_question price amount order.id], some order)

/-- Oracle for one manual_sell run. -/
structure ManualSellOracle where
  position_lookup : Option Position
  book : Option BookResponse
  resp : ClobResponse
  fresh_id : String := ""
  db : DbFlags := {}
deriving Repr, DecidableEq

/-- Embedding of TradingService.manual_sell. Falls back to the monitored
entry's last price when the book fetch fails; the except block only logs. -/
def manual_sell (st : TraderState) (market_id : String) (o : ManualSellOracle)
    (now : ℚ) : TraderState × List Effect × Option Order :=
  match dict_get st.monitored_markets market_id with
  | none => (st, [], none)
  | some monitored =>
      match o.position_lookup with
      | none => (st, [], none)
      | some position =>
          let current_price :=
            match get_market_price monitored.token_id o.book with
            | some pd => pd.price
            | none => monitored.current_price
          let sell_amount := monitored.position_size * current_price / 100
          let pr := place_order true monitored.token_id .sell current_price
            sell_amount false o.resp o.fresh_id
          let effs := if pr.submitted then
            [Effect.place_order_call monitored.token_id .sell current_price
              sell_amount false] else []
          match pr.order with
          | none => (st, effs, none)
          | some order =>
              if ¬ o.db.save_order_ok then (st, effs, none)
              else
                let effs := effs ++ [.save_order order]
                let pnl := sell_amount - position.cost
                let st1 := { st with daily_pnl := st.daily_pnl + pnl }
                let position1 :=
                  { position with
                      status := PositionStatus.closed
                      current_price := current_price
                      value := sell_amount
                      realized_pnl := pnl
                      closed_at := some now }
                if ¬ o.db.save_position_ok then (st1, effs, none)
                else
                  let effs := effs ++ [.save_position position1]
                  if ¬ o.db.record_trade_ok then (st1, effs, none)
                  else
                    let effs := effs ++
                      [.record_trade order.id market_id "SELL" current_price
                        order.size sell_amount pnl]
                    let mm2 := dict_update st1.monitored_markets market_id
                      (fun m => { m with has_position := false, is_monitoring := false })
                    let st2 := { st1 with monitored_markets := mm2 }
                    (st2, effs ++ [.notify_sell monitored.market_question current_price
                      sell_amount pnl], some order)

/-! Helper lemmas shared by the claim theorems. -/

/-- Only the order-submission effects of an effect list. -/
def order_calls (l : List Effect) : List Effect :=
  l.filter fun e =>
    match e with
    | .place_order_call _ _ _ _ _ => true
    | _ => false

theorem set_add_keeps (l : List String) (x y : String)
    (h : l.contains x = true) : (set_add l y).contains x = true := by
  unfold set_add
  split
  · exact h
  · simpa using Or.inl h

theorem execute_entry_processed (cfg : TradingConfig) (st : TraderState)
    (market : Market) (price : ℚ) (o : EntryOracle) (now : ℚ) :
    (execute_entry cfg st market price o now).1.processed_markets = st.processed_markets ∨
    (execute_entry cfg st market price o now).1.processed_markets =
      set_add st.processed_markets market.id := by
  unfold execute_entry
  dsimp only
  repeat' split
  all_goals simp

theorem execute_stop_loss_processed (st : TraderState) (m : MonitoredMarket)
    (p : ℚ) (o : StopLossOracle) (now : ℚ) :
    (execute_stop_loss st m p o now).1.processed_markets = st.processed_markets := by
  unfold execute_stop_loss
  dsimp only
  repeat' split
  all_goals simp

theorem check_price_one_processed (cfg : TradingConfig) (st : TraderState)
    (mid : String) (o : MonitorOracle) (now : ℚ) :
    (check_price_one cfg st mid o now).1.processed_markets = st.processed_markets := by
  unfold check_price_one
  dsimp only
  repeat' split
  all_goals first
    | rfl
    | exact execute_stop_loss_processed _ _ _ _ _
    | simp

theorem scan_market_one_processed (cfg : TradingConfig) (st : TraderState)
    (market : Market) (o : EntryOracle) (now : ℚ) :
    (scan_market_one cfg st market o now).1.processed_markets = st.processed_markets ∨
    (scan_market_one cfg st market o now).1.processed_markets =
      set_add st.processed_markets market.id := by
  unfold scan_market_one
  dsimp only
  repeat' split
  all_goals first
    | exact execute_entry_processed _ _ _ _ _ _
    | simp

theorem dict_get_set (l : List (String × MonitoredMarket)) (k : String)
    (v : MonitoredMarket) : dict_get (dict_set l k v) k = some v := by
  unfold dict_get dict_set
  split
  case isTrue h =>
    induction l with
    | nil => simp at h
    | cons p t ih =>
        by_cases hp : p.1 == k
        · simp only [List.map_cons, if_pos hp]
          rw [List.find?_cons_of_pos _ (by simp)]
          rfl
        · simp only [List.map_cons, if_neg hp]
          rw [List.find?_cons_of_neg _ (by simpa using hp)]
          rw [List.find?_cons_of_neg _ (by simpa using hp)] at h
          exact ih h
  case isFalse h =>
    rw [List.find?_append, Option.not_isSome_iff_eq_none.mp h]
    simp

theorem dict_get_update (l : List (String × MonitoredMarket)) (k : String)
    (f : MonitoredMarket → MonitoredMarket) :
    dict_get (dict_update l k f) k = (dict_get l k).map f := by
  unfold dict_get dict_update
  induction l with
  | nil => simp
  | cons p t ih =>
      by_cases hp : p.1 == k
      · simp only [List.map_cons, if_pos hp]
        rw [List.find?_cons_of_pos _ (by simpa using hp),
          List.find?_cons_of_pos _ (by simpa using hp)]
        rfl
      · simp only [List.map_cons, if_neg hp]
        rw [List.find?_cons_of_neg _ (by simpa using hp),
          List.find?_cons_of_neg _ (by simpa using hp)]
        exact ih

/-- A limit-order submission with a nonempty token, positive amount and a
price strictly inside (0, 100), answered by a success payload, yields the
order the source builds from the request and the payload. -/
theorem place_order_limit_success (tok : String) (side : OrderSide) (p a : ℚ)
    (d : RespData) (fid : String)
    (htok : ¬ tok = "") (ha : 0 < a) (hp0 : 0 < p) (hp1 : p < 100) :
    place_order true tok side p a false (.success d) fid =
      ⟨true, some
        { id := d.order_id_of
          market_id := d.market.getD ""
          token_id := tok
          side := side
          price := p
          size := a / price_to_decimal p
          amount := a
          status := .opn }⟩ := by
  have hpd : 0 < price_to_decimal p := by
    unfold price_to_decimal; positivity
  have hpd1 : price_to_decimal p < 1 := by
    unfold price_to_decimal
    rw [div_lt_one (by norm_num : (0:ℚ) < 100)]
    exact hp1
  unfold place_order
  rw [if_neg (by simp), if_neg htok, if_neg (not_le.mpr ha),
    if_neg (by simp : ¬ (false = true)),
    if_neg (by rintro (hc | hc) <;> linarith :
      ¬ (p ≤ 0 ∨ p ≥ 100))]
  dsimp only
  rw [if_neg (by rintro (hc | hc) <;> linarith :
      ¬ (price_to_decimal p ≤ 0 ∨ price_to_decimal p ≥ 1)),
    if_neg (not_le.mpr (div_pos ha hpd))]

/-! Claim theorems. -/

/-- C10: for every price p strictly between 0 and 100, the place_order
conversion to protocol units (divide by 100) followed by the
get_market_price conversion back (multiply by 100) recovers p exactly
over rational arithmetic. -/
theorem price_roundtrip (p : ℚ) (h0 : 0 < p) (h1 : p < 100) :
    decimal_to_display (price_to_decimal p) = p := by
  unfold decimal_to_display price_to_decimal
  field_simp

/-- Witness for price_roundtrip at p = 55. -/
theorem price_roundtrip_witness :
    decimal_to_display (price_to_decimal 55) = 55 :=
  price_roundtrip 55 (by norm_num) (by norm_num)

/-- C7 counterexample: a market-order placement request with price 0 is
not rejected; the submission reaches the exchange and an order is
returned, so the claim quantified over every order-placement request is
false. -/
theorem market_order_zero_price_not_rejected :
    (place_order true "tok" OrderSide.buy 0 5 true (ClobResponse.success {}) "f").submitted
      = true ∧
    (place_order true "tok" OrderSide.buy 0 5 true (ClobResponse.success {}) "f").order
      ≠ none := by
  constructor <;> decide

/-- C7 as amended: for every limit order-placement request (market_order
false) with price at or below 0 or at or above 100, place_order rejects
before any exchange call: nothing is submitted and the result is None,
whatever the client state, token, amount and would-be response. -/
theorem limit_order_invalid_price_rejected (ci : Bool) (tok : String)
    (side : OrderSide) (price amount : ℚ) (resp : ClobResponse) (fid : String)
    (h : price ≤ 0 ∨ 100 ≤ price) :
    place_order ci tok side price amount false resp fid = ⟨false, none⟩ := by
  unfold place_order
  by_cases h1 : ¬ ci = true
  · rw [if_pos h1]
  · rw [if_neg h1]
    by_cases h2 : tok = ""
    · rw [if_pos h2]
    · rw [if_neg h2]
      by_cases h3 : amount ≤ 0
      · rw [if_pos h3]
      · rw [if_neg h3, if_neg (by simp : ¬ (false = true)), if_pos h]

/-- Witness for limit_order_invalid_price_rejected at price 100. -/
theorem limit_order_invalid_price_rejected_witness :
    place_order true "tok" OrderSide.buy 100 5 false (ClobResponse.success {}) "f"
      = ⟨false, none⟩ :=
  limit_order_invalid_price_rejected true "tok" OrderSide.buy 100 5
    (ClobResponse.success {}) "f" (Or.inr (by norm_num))

/-- C5: the market feed admits a market iff its closed flag is false, it
has a parsed settlement timestamp within [now - 3600, now + hours_filter
times 3600] (one-hour grace window), and tolerant decoding of its token
field yields at least two token identifiers; in particular a closed
market is never admitted and one without a settlement timestamp is never
admitted. -/
theorem admits_market_spec (now hf : ℚ) (m : RawMarket) :
    (admits_market now hf m = true ↔
      m.closed = false ∧ ∃ t, m.end_date = some t ∧ now - 3600 ≤ t ∧
        t ≤ now + hf * 3600 ∧ 2 ≤ (decode_tokens m.clobTokenIds).length) ∧
    (m.closed = true → admits_market now hf m = false) ∧
    (m.end_date = none → admits_market now hf m = false) := by
  rcases m with ⟨c, ed, tok⟩
  unfold admits_market
  cases c
  · cases ed with
    | none => simp
    | some t =>
        simp only [Bool.false_eq_true, if_false, reduceCtorEq, false_implies,
          and_true, true_and, Option.some.injEq]
        split_ifs with h1 h2 h3
        · simp only [false_iff, not_exists, not_and]
          intro t' ht'
          subst ht'
          intro hle
          exfalso; linarith
        · simp only [false_iff, not_exists, not_and]
          intro t' ht'
          subst ht'
          intro _ hle _
          linarith
        · simp only [false_iff, not_exists, not_and]
          intro t' ht'
          subst ht'
          intro _ _
          omega
        · simp only [true_iff]
          exact ⟨t, rfl, by linarith, by linarith, by omega⟩
  · simp

/-- Witness for admits_market_spec: a closed market is rejected. -/
theorem admits_market_spec_witness :
    admits_market 0 1 ⟨true, some 0, .native (some ["a", "b"])⟩ = false :=
  (admits_market_spec 0 1 ⟨true, some 0, .native (some ["a", "b"])⟩).2.1 rfl

/-- C2: once a market identifier is in the processed set, a scan that
sees it again with a price at or above the entry threshold does nothing
(state unchanged, no effects, so no second entry order), and any scan or
monitor step keeps the identifier in the set, so re-entry never happens
later in the process lifetime either. -/
theorem processed_market_never_reentered (cfg : TradingConfig) (st : TraderState)
    (market : Market) (o : EntryOracle) (now : ℚ)
    (hmem : st.processed_markets.contains market.id = true)
    (hprice : cfg.entry_price ≤ market.yes_price * 100) :
    scan_market_one cfg st market o now = (st, []) ∧
    (∀ (cfg2 : TradingConfig) (st2 : TraderState) (mkt2 : Market) (o2 : EntryOracle)
      (now2 : ℚ), st2.processed_markets.contains market.id = true →
      (scan_market_one cfg2 st2 mkt2 o2 now2).1.processed_markets.contains market.id
        = true) ∧
    (∀ (cfg2 : TradingConfig) (st2 : TraderState) (mid : String) (mo : MonitorOracle)
      (now2 : ℚ), st2.processed_markets.contains market.id = true →
      (check_price_one cfg2 st2 mid mo now2).1.processed_markets.contains market.id
        = true) := by
  refine ⟨?_, ?_, ?_⟩
  · unfold scan_market_one
    dsimp only
    rw [if_neg (not_lt.mpr hprice), if_pos hmem]
  · intro cfg2 st2 mkt2 o2 now2 h2
    rcases scan_market_one_processed cfg2 st2 mkt2 o2 now2 with h | h
    · rw [h]; exact h2
    · rw [h]; exact set_add_keeps _ _ _ h2
  · intro cfg2 st2 mid mo now2 h2
    rw [check_price_one_processed]; exact h2

/-- Witness for processed_market_never_reentered. -/
theorem processed_market_never_reentered_witness :
    scan_market_one {} ⟨[], ["m1"], 0⟩
      { id := "m1", question := "q", yes_price := 95/100, token_id := "tok" }
      { available_balance := 100, resp := .no_response } 0 = (⟨[], ["m1"], 0⟩, []) :=
  (processed_market_never_reentered {} ⟨[], ["m1"], 0⟩
    { id := "m1", question := "q", yes_price := 95/100, token_id := "tok" }
    { available_balance := 100, resp := .no_response } 0
    (by decide) (by norm_num)).1

/-- C3: when the available balance is below the configured order amount,
entry execution returns with the state unchanged and no effects at all
(no order, no position, no trade record, no registry or processed-set
mutation); and an order submission only ever happens when the balance
check and the position-amount-cap check have both passed. -/
theorem entry_refused_on_low_balance (cfg : TradingConfig) (st : TraderState)
    (market : Market) (price : ℚ) (o : EntryOracle) (now : ℚ) :
    (o.available_balance < cfg.order_amount →
      execute_entry cfg st market price o now = (st, [])) ∧
    (∀ tok sd p a mo,
      Effect.place_order_call tok sd p a mo ∈ (execute_entry cfg st market price o now).2 →
      cfg.order_amount ≤ o.available_balance ∧
      position_value_sum st + cfg.order_amount ≤ cfg.max_position_amount) := by
  constructor
  · intro h
    unfold execute_entry
    rw [if_pos h]
  · intro tok sd p a mo hmem
    unfold execute_entry at hmem
    dsimp only at hmem
    by_cases h1 : o.available_balance < cfg.order_amount
    · rw [if_pos h1] at hmem
      simp at hmem
    · rw [if_neg h1] at hmem
      by_cases h2 : cfg.max_position_amount < position_value_sum st + cfg.order_amount
      · rw [if_pos h2] at hmem
        simp at hmem
      · exact ⟨not_lt.1 h1, not_lt.1 h2⟩

/-- Witness for entry_refused_on_low_balance: balance 5 against order
amount 10. -/
theorem entry_refused_on_low_balance_witness :
    execute_entry {} ⟨[], [], 0⟩
      { id := "m1", question := "q", yes_price := 95/100, token_id := "tok" } 95
      { available_balance := 5, resp := .no_response } 0 = (⟨[], [], 0⟩, []) :=
  (entry_refused_on_low_balance {} ⟨[], [], 0⟩
    { id := "m1", question := "q", yes_price := 95/100, token_id := "tok" } 95
    { available_balance := 5, resp := .no_response } 0).1 (by norm_num)

/-- C9: an order-book response with empty bids and empty asks yields a
non-null MarketPrice with price 0 from get_market_price, and a
monitor-loop check that reads such a book for a monitored, positioned
market with a non-negative stop-loss threshold and auto-trading enabled
proceeds into stop-loss execution at current price 0. -/
theorem empty_book_triggers_stop_loss (tok : String) (data : BookResponse)
    (hb : data.bids = []) (ha : data.asks = [])
    (cfg : TradingConfig) (st : TraderState) (market_id : String)
    (m : MonitoredMarket) (o : MonitorOracle) (now : ℚ)
    (hm : dict_get st.monitored_markets market_id = some m)
    (hmon : m.is_monitoring = true) (hpos : m.has_position = true)
    (hsl : 0 ≤ m.stop_loss_price) (hauto : cfg.auto_trading_enabled = true)
    (hbook : o.book = some data) (htok : m.token_id = tok) :
    get_market_price tok (some data) =
      some { market_id := data.market, token_id := tok, price := 0, bid := 0,
             ask := 0, spread := 0 } ∧
    check_price_one cfg st market_id o now =
      execute_stop_loss
        ⟨dict_set st.monitored_markets market_id
            { m with current_price := 0, last_check := now },
          st.processed_markets, st.daily_pnl⟩
        { m with current_price := 0, last_check := now } 0 o.sl now := by
  have h1 : get_market_price tok (some data) =
      some { market_id := data.market, token_id := tok, price := 0, bid := 0,
             ask := 0, spread := 0 } := by
    unfold get_market_price decimal_to_display
    dsimp only
    rw [hb, ha]
    norm_num
  refine ⟨h1, ?_⟩
  unfold check_price_one
  rw [hm]
  dsimp only
  rw [hmon, hpos]
  simp only [Bool.not_true, Bool.or_self, Bool.false_eq_true, if_false]
  rw [htok, hbook, h1]
  dsimp only
  rw [if_pos (by simpa using hsl), if_pos hauto]

/-- Sample monitored market used by concrete witnesses. -/
def sample_monitored : MonitoredMarket :=
  { market_id := "m1", token_id := "tok", market_question := "q",
    entry_price := 90, stop_loss_price := 85, current_price := 90,
    has_position := true, position_size := 20 }

/-- Sample one-market scheduler state used by concrete witnesses. -/
def sample_state : TraderState := ⟨[("m1", sample_monitored)], [], 0⟩

/-- Sample stop-loss oracle with no open position found. -/
def sample_sl_oracle : StopLossOracle :=
  { position_lookup := none, resp := .no_response }

/-- Witness for empty_book_triggers_stop_loss at a concrete one-market
state with an empty book. -/
theorem empty_book_triggers_stop_loss_witness :
    check_price_one { auto_trading_enabled := true } sample_state "m1"
        { book := some ⟨"c1", [], []⟩, sl := sample_sl_oracle } 7 =
      execute_stop_loss
        ⟨dict_set sample_state.monitored_markets "m1"
            { sample_monitored with current_price := 0, last_check := 7 },
          sample_state.processed_markets, sample_state.daily_pnl⟩
        { sample_monitored with current_price := 0, last_check := 7 }
        0 sample_sl_oracle 7 :=
  (empty_book_triggers_stop_loss "tok" ⟨"c1", [], []⟩ rfl rfl
    { auto_trading_enabled := true } sample_state "m1" sample_monitored
    { book := some ⟨"c1", [], []⟩, sl := sample_sl_oracle } 7
    (by decide) rfl rfl (by norm_num [sample_monitored]) rfl rfl rfl).2

/-- C1 as amended: with auto-trading enabled, a monitor check of a
monitored, positioned market whose fetched current price is at or below
its stop-loss price submits exactly one SELL order whose amount equals
position_size * current_price / 100, persists that order (tagged
stop-loss), saves the position as CLOSED with realized_pnl equal to the
sell amount minus the cost and with a close timestamp, adds the pnl to
the running daily-PnL counter, and deactivates the monitored market —
provided the fetched price lies strictly inside (0, 100) and the position
size is positive, so that the computed sell amount passes place_order's
validation (at fetched price 0 or position size 0 the sell amount is 0
and place_order rejects it before any submission, see the
counterexample), the open position is found, and the exchange accepts
the sell. -/
theorem stop_loss_execution_spec (cfg : TradingConfig) (st : TraderState)
    (market_id : String) (m : MonitoredMarket) (pd : MarketPrice) (pos : Position)
    (d : RespData) (o : MonitorOracle) (now : ℚ)
    (hm : dict_get st.monitored_markets market_id = some m)
    (hkey : m.market_id = market_id)
    (hmon : m.is_monitoring = true) (hpos : m.has_position = true)
    (hfetch : get_market_price m.token_id o.book = some pd)
    (hstop : pd.price ≤ m.stop_loss_price)
    (hauto : cfg.auto_trading_enabled = true)
    (hlookup : o.sl.position_lookup = some pos)
    (hresp : o.sl.resp = .success d)
    (hdb : o.sl.db = {})
    (htok : ¬ m.token_id = "")
    (hp0 : 0 < pd.price) (hp1 : pd.price < 100)
    (hsz : 0 < m.position_size) :
    order_calls (check_price_one cfg st market_id o now).2 =
      [.place_order_call m.token_id .sell pd.price
        (m.position_size * pd.price / 100) false] ∧
    (∃ ord, Effect.save_order ord ∈ (check_price_one cfg st market_id o now).2 ∧
      ord.side = .sell ∧ ord.amount = m.position_size * pd.price / 100 ∧
      ord.trigger_type = some .stop_loss) ∧
    (∃ p1, Effect.save_position p1 ∈ (check_price_one cfg st market_id o now).2 ∧
      p1.status = .closed ∧
      p1.realized_pnl = m.position_size * pd.price / 100 - pos.cost ∧
      p1.closed_at = some now) ∧
    (check_price_one cfg st market_id o now).1.daily_pnl =
      st.daily_pnl + (m.position_size * pd.price / 100 - pos.cost) ∧
    (∃ m1, dict_get (check_price_one cfg st market_id o now).1.monitored_markets
        market_id = some m1 ∧ m1.has_position = false ∧ m1.is_monitoring = false) := by
  have hsell : (0 : ℚ) < m.position_size * pd.price / 100 :=
    div_pos (mul_pos hsz hp0) (by norm_num)
  have hcheck : check_price_one cfg st market_id o now =
      execute_stop_loss
        ⟨dict_set st.monitored_markets market_id
            { m with current_price := pd.price, last_check := now },
          st.processed_markets, st.daily_pnl⟩
        { m with current_price := pd.price, last_check := now } pd.price o.sl now := by
    unfold check_price_one
    rw [hm]
    dsimp only
    rw [hmon, hpos]
    simp only [Bool.not_true, Bool.or_self, Bool.false_eq_true, if_false]
    rw [hfetch]
    dsimp only
    rw [if_pos (by simpa using hstop), if_pos hauto]
  have hplace := place_order_limit_success m.token_id OrderSide.sell pd.price
    (m.position_size * pd.price / 100) d o.sl.fresh_id htok hsell hp0 hp1
  have hrun : check_price_one cfg st market_id o now =
      (⟨dict_update (dict_set st.monitored_markets market_id
            { m with current_price := pd.price, last_check := now }) m.market_id
            (fun mm => { mm with has_position := false, is_monitoring := false }),
         st.processed_markets,
         st.daily_pnl + (m.position_size * pd.price / 100 - pos.cost)⟩,
       [.place_order_call m.token_id .sell pd.price (m.position_size * pd.price / 100) false,
        .save_order
          { id := d.order_id_of
            market_id := d.market.getD ""
            token_id := m.token_id
            side := .sell
            price := pd.price
            size := m.position_size * pd.price / 100 / price_to_decimal pd.price
            amount := m.position_size * pd.price / 100
            status := .opn
            trigger_type := some .stop_loss },
        .save_position
          { pos with
              status := PositionStatus.closed
              current_price := pd.price
              value := m.position_size * pd.price / 100
              realized_pnl := m.position_size * pd.price / 100 - pos.cost
              closed_at := some now
              stop_loss_triggered := true },
        .record_trade d.order_id_of m.market_id "SELL" pd.price
          (m.position_size * pd.price / 100 / price_to_decimal pd.price)
          (m.position_size * pd.price / 100)
          (m.position_size * pd.price / 100 - pos.cost),
        .notify_stop_loss m.market_question pd.price pos.avg_price
          (if m.position_size * pd.price / 100 - pos.cost < 0
            then |m.position_size * pd.price / 100 - pos.cost|
            else -(m.position_size * pd.price / 100 - pos.cost))]) := by
    rw [hcheck]
    unfold execute_stop_loss
    rw [hlookup]
    dsimp only
    rw [hresp, hplace]
    dsimp only
    rw [hdb]
    simp
  rw [hrun]
  refine ⟨?_, ?_, ?_, ?_, ?_⟩
  · simp [order_calls]
  · refine ⟨_, List.mem_cons_of_mem _ (List.mem_cons_self _ _), rfl, rfl, rfl⟩
  · refine ⟨_, List.mem_cons_of_mem _ (List.mem_cons_of_mem _ (List.mem_cons_self _ _)),
      rfl, rfl, rfl⟩
  · rfl
  · refine ⟨{ m with
        current_price := pd.price, last_check := now,
        has_position := false, is_monitoring := false }, ?_, rfl, rfl⟩
    rw [hkey, dict_get_update, dict_get_set]
    rfl

/-- Sample open position used by concrete witnesses. -/
def sample_position : Position :=
  { id := "p1", market_id := "m1", token_id := "tok", size := 20,
    avg_price := 50, cost := 10 }

/-- Sample order book with one bid and one ask, both at 0.5. -/
def sample_book : BookResponse := ⟨"c1", [1/2], [1/2]⟩

/-- Sample stop-loss oracle where everything succeeds. -/
def sample_sl_success : StopLossOracle :=
  { position_lookup := some sample_position, resp := .success {} }

/-- Witness for stop_loss_execution_spec: at price 50 on a 20-share
position of cost 10, the running daily PnL ends at 0 + (20*50/100 - 10)
= 0. -/
theorem stop_loss_execution_spec_witness :
    (check_price_one { auto_trading_enabled := true } sample_state "m1"
      { book := some sample_book, sl := sample_sl_success } 7).1.daily_pnl =
      sample_state.daily_pnl +
        (sample_monitored.position_size * 50 / 100 - sample_position.cost) :=
  (stop_loss_execution_spec { auto_trading_enabled := true } sample_state "m1"
    sample_monitored
    { market_id := "c1", token_id := "tok", price := 50, bid := 50, ask := 50, spread := 0 }
    sample_position {}
    { book := some sample_book, sl := sample_sl_success } 7
    rfl rfl rfl rfl
    (by norm_num [get_market_price, sample_book, sample_monitored, decimal_to_display])
    (by norm_num [sample_monitored]) rfl rfl rfl rfl
    (by decide) (by norm_num) (by norm_num)
    (by norm_num [sample_monitored])).2.2.2.1

/-- C1 counterexample: at fetched current price 0 — produced by an empty
order book — the stop-loss path computes sell amount position_size * 0 /
100 = 0, which place_order rejects at its amount check before any
submission. All of the claim's conditions hold at this input
(auto-trading enabled, monitored market with an open position, fetched
price 0 at or below the stop-loss threshold, open position found), yet no
SELL order is submitted, nothing is persisted, the position is not
closed, the daily PnL is unchanged and the market keeps
has_position = true — so the claim as stated is false. -/
theorem stop_loss_zero_price_no_sell :
    sample_monitored.has_position = true ∧
    sample_sl_success.position_lookup = some sample_position ∧
    (check_price_one { auto_trading_enabled := true } sample_state "m1"
      { book := some ⟨"c1", [], []⟩, sl := sample_sl_success } 7).2 = [] ∧
    dict_get (check_price_one { auto_trading_enabled := true } sample_state "m1"
        { book := some ⟨"c1", [], []⟩, sl := sample_sl_success } 7).1.monitored_markets
      "m1" = some { sample_monitored with current_price := 0, last_check := 7 } ∧
    ({ sample_monitored with current_price := 0, last_check := 7 }).has_position
      = true ∧
    (check_price_one { auto_trading_enabled := true } sample_state "m1"
      { book := some ⟨"c1", [], []⟩, sl := sample_sl_success } 7).1.daily_pnl = 0 := by
  have hgp : get_market_price sample_monitored.token_id (some ⟨"c1", [], []⟩) =
      some { market_id := "c1", token_id := "tok", price := 0, bid := 0, ask := 0,
             spread := 0 } := by
    norm_num [get_market_price, decimal_to_display, sample_monitored]
  have hpo : place_order true sample_monitored.token_id OrderSide.sell 0
      (sample_monitored.position_size * 0 / 100) false sample_sl_success.resp
      sample_sl_success.fresh_id = ⟨false, none⟩ := by
    unfold place_order
    rw [if_neg (by simp), if_neg (by decide : ¬ (sample_monitored.token_id = "")),
      if_pos (by norm_num [sample_monitored] :
        sample_monitored.position_size * 0 / 100 ≤ 0)]
  have hrun : check_price_one { auto_trading_enabled := true } sample_state "m1"
      { book := some ⟨"c1", [], []⟩, sl := sample_sl_success } 7 =
      (⟨dict_set sample_state.monitored_markets "m1"
          { sample_monitored with current_price := 0, last_check := 7 },
        sample_state.processed_markets, sample_state.daily_pnl⟩, []) := by
    unfold check_price_one
    rw [show dict_get sample_state.monitored_markets "m1" = some sample_monitored
      from rfl]
    dsimp only
    rw [show sample_monitored.is_monitoring = true from rfl,
      show sample_monitored.has_position = true from rfl]
    simp only [Bool.not_true, Bool.or_self, Bool.false_eq_true, if_false]
    rw [hgp]
    dsimp only
    rw [if_pos (by norm_num [sample_monitored] :
        (0 : ℚ) ≤ sample_monitored.stop_loss_price),
      if_pos trivial]
    unfold execute_stop_loss
    rw [show sample_sl_success.position_lookup = some sample_position from rfl]
    dsimp only
    rw [hpo]
    rfl
  refine ⟨rfl, rfl, ?_, ?_, rfl, ?_⟩
  · rw [hrun]
  · rw [hrun]
    dsimp only
    exact dict_get_set _ _ _
  · rw [hrun]
    rfl

/-! Daily-PnL noninterference lemmas: the entry path never reads or
writes the daily-PnL counter, and the stop-loss path only adds to it. -/

theorem execute_entry_state_daily (cfg : TradingConfig)
    (mm : List (String × MonitoredMarket)) (pm : List String) (d1 d2 : ℚ)
    (market : Market) (p : ℚ) (o : EntryOracle) (now : ℚ) :
    execute_entry cfg ⟨mm, pm, d1⟩ market p o now =
      ({ (execute_entry cfg ⟨mm, pm, d2⟩ market p o now).1 with daily_pnl := d1 },
       (execute_entry cfg ⟨mm, pm, d2⟩ market p o now).2) := by
  unfold execute_entry
  dsimp only
  by_cases h1 : o.available_balance < cfg.order_amount
  · simp only [if_pos h1] <;> rfl
  · simp only [if_neg h1]
    rw [show position_value_sum ⟨mm, pm, d1⟩ = position_value_sum ⟨mm, pm, d2⟩ from rfl]
    by_cases h2 : position_value_sum ⟨mm, pm, d2⟩ + cfg.order_amount >
        cfg.max_position_amount
    · simp only [if_pos h2] <;> rfl
    · simp only [if_neg h2]
      cases ho : (place_order true market.token_id .buy p cfg.order_amount false
          o.resp o.fresh_id).order with
      | none => rfl
      | some order0 =>
          by_cases h3 : ¬ o.db.save_order_ok = true
          · simp only [if_pos h3] <;> rfl
          · simp only [if_neg h3]
            by_cases h4 : ¬ o.db.save_position_ok = true
            · simp only [if_pos h4] <;> rfl
            · simp only [if_neg h4]
              by_cases h5 : ¬ o.db.record_trade_ok = true
              · simp only [if_pos h5] <;> rfl
              · simp only [if_neg h5] <;> rfl

theorem execute_stop_loss_state_daily
    (mm : List (String × MonitoredMarket)) (pm : List String) (d1 d2 : ℚ)
    (m : MonitoredMarket) (p : ℚ) (o : StopLossOracle) (now : ℚ) :
    execute_stop_loss ⟨mm, pm, d1⟩ m p o now =
      ({ (execute_stop_loss ⟨mm, pm, d2⟩ m p o now).1 with
          daily_pnl := (execute_stop_loss ⟨mm, pm, d2⟩ m p o now).1.daily_pnl - d2 + d1 },
       (execute_stop_loss ⟨mm, pm, d2⟩ m p o now).2) := by
  unfold execute_stop_loss
  dsimp only
  cases hp : o.position_lookup with
  | none =>
      simp only [Prod.mk.injEq, TraderState.mk.injEq, true_and, and_true] <;> ring
  | some position =>
      cases ho : (place_order true m.token_id .sell p (m.position_size * p / 100) false
          o.resp o.fresh_id).order with
      | none =>
          simp only [Prod.mk.injEq, TraderState.mk.injEq, true_and, and_true] <;> ring
      | some order0 =>
          by_cases h3 : ¬ o.db.save_order_ok = true
          · simp only [if_pos h3, Prod.mk.injEq, TraderState.mk.injEq, true_and, and_true] <;> ring
          · simp only [if_neg h3]
            by_cases h4 : ¬ o.db.save_position_ok = true
            · simp only [if_pos h4, Prod.mk.injEq, TraderState.mk.injEq, true_and, and_true] <;> ring
            · simp only [if_neg h4]
              by_cases h5 : ¬ o.db.record_trade_ok = true
              · simp only [if_pos h5, Prod.mk.injEq, TraderState.mk.injEq, true_and, and_true] <;> ring
              · simp only [if_neg h5, Prod.mk.injEq, TraderState.mk.injEq, true_and, and_true] <;> ring

theorem check_price_one_state_daily (cfg : TradingConfig)
    (mm : List (String × MonitoredMarket)) (pm : List String) (d1 d2 : ℚ)
    (mid : String) (o : MonitorOracle) (now : ℚ) :
    check_price_one cfg ⟨mm, pm, d1⟩ mid o now =
      ({ (check_price_one cfg ⟨mm, pm, d2⟩ mid o now).1 with
          daily_pnl := (check_price_one cfg ⟨mm, pm, d2⟩ mid o now).1.daily_pnl - d2 + d1 },
       (check_price_one cfg ⟨mm, pm, d2⟩ mid o now).2) := by
  unfold check_price_one
  dsimp only
  cases hg : dict_get mm mid with
  | none =>
      simp only [Prod.mk.injEq, TraderState.mk.injEq, true_and, and_true] <;> ring
  | some monitored =>
      by_cases hb : (!monitored.is_monitoring || !monitored.has_position) = true
      · simp only [if_pos hb, Prod.mk.injEq, TraderState.mk.injEq, true_and, and_true] <;> ring
      · simp only [if_neg hb]
        cases hgp : get_market_price monitored.token_id o.book with
        | none =>
            simp only [Prod.mk.injEq, TraderState.mk.injEq, true_and, and_true] <;> ring
        | some price_data =>
            dsimp only
            by_cases hc : price_data.price ≤ monitored.stop_loss_price
            · simp only [if_pos hc]
              by_cases hd : cfg.auto_trading_enabled = true
              · simp only [if_pos hd]
                exact execute_stop_loss_state_daily _ _ d1 d2 _ _ _ _
              · simp only [if_neg hd, Prod.mk.injEq, TraderState.mk.injEq, true_and, and_true] <;> ring
            · simp only [if_neg hc, Prod.mk.injEq, TraderState.mk.injEq]
              simp only [Prod.mk.injEq, TraderState.mk.injEq, true_and, and_true] <;> ring

theorem scan_market_one_state_daily (cfg : TradingConfig)
    (mm : List (String × MonitoredMarket)) (pm : List String) (d1 d2 : ℚ)
    (market : Market) (o : EntryOracle) (now : ℚ) :
    scan_market_one cfg ⟨mm, pm, d1⟩ market o now =
      ({ (scan_market_one cfg ⟨mm, pm, d2⟩ market o now).1 with daily_pnl := d1 },
       (scan_market_one cfg ⟨mm, pm, d2⟩ market o now).2) := by
  unfold scan_market_one
  dsimp only
  by_cases h1 : market.yes_price * 100 < cfg.entry_price
  · simp only [if_pos h1]
  · simp only [if_neg h1]
    by_cases h2 : pm.contains market.id = true
    · simp only [if_pos h2]
    · simp only [if_neg h2]
      by_cases h3 : (dict_get mm market.id).any (fun m => m.has_position) = true
      · simp only [if_pos h3]
      · simp only [if_neg h3]
        by_cases h4 : cfg.max_open_positions ≤ (mm.filter (fun p => p.2.has_position)).length
        · simp only [if_pos h4]
        · simp only [if_neg h4]
          by_cases h5 : cfg.auto_trading_enabled = true
          · simp only [if_pos h5]
            exact execute_entry_state_daily cfg _ pm d1 d2 market _ o now
          · simp only [if_neg h5]

/-- C8: the configured max_daily_loss value never influences trading
behaviour, and the accumulated daily PnL is never read as a gate: a scan
step, a monitor step, an entry and a manual trade behave identically under
any change of max_daily_loss, and under any change of the accumulated
daily-PnL counter they perform the same effects and reach the same
registry and processed-set state. -/
theorem max_daily_loss_no_influence (cfg : TradingConfig) (v : ℚ)
    (st : TraderState) (market : Market) (p : ℚ) (o : EntryOracle)
    (mid : String) (mo : MonitorOracle) (mbid mbtok mbq : String)
    (mbprice mbamount : ℚ) (mborder : Bool) (mbo : ManualBuyOracle) (now q : ℚ) :
    (scan_market_one { cfg with max_daily_loss := v } st market o now =
      scan_market_one cfg st market o now) ∧
    (check_price_one { cfg with max_daily_loss := v } st mid mo now =
      check_price_one cfg st mid mo now) ∧
    (execute_entry { cfg with max_daily_loss := v } st market p o now =
      execute_entry cfg st market p o now) ∧
    (manual_buy { cfg with max_daily_loss := v } st mbid mbtok mbprice mbamount mbq
        mborder mbo now =
      manual_buy cfg st mbid mbtok mbprice mbamount mbq mborder mbo now) ∧
    ((scan_market_one cfg { st with daily_pnl := q } market o now).2 =
      (scan_market_one cfg st market o now).2) ∧
    ((scan_market_one cfg { st with daily_pnl := q } market o now).1.monitored_markets =
      (scan_market_one cfg st market o now).1.monitored_markets) ∧
    ((scan_market_one cfg { st with daily_pnl := q } market o now).1.processed_markets =
      (scan_market_one cfg st market o now).1.processed_markets) ∧
    ((check_price_one cfg { st with daily_pnl := q } mid mo now).2 =
      (check_price_one cfg st mid mo now).2) ∧
    ((check_price_one cfg { st with daily_pnl := q } mid mo now).1.monitored_markets =
      (check_price_one cfg st mid mo now).1.monitored_markets) ∧
    ((check_price_one cfg { st with daily_pnl := q } mid mo now).1.processed_markets =
      (check_price_one cfg st mid mo now).1.processed_markets) := by
  refine ⟨rfl, rfl, rfl, rfl, ?_, ?_, ?_, ?_, ?_, ?_⟩ <;>
    first
      | rw [scan_market_one_state_daily cfg st.monitored_markets st.processed_markets
          q st.daily_pnl market o now]
      | rw [check_price_one_state_daily cfg st.monitored_markets st.processed_markets
          q st.daily_pnl mid mo now]

/-! Registry invariant (C6). -/

/-- The MonitoredMarket registry invariant: a held position has a
positive size. -/
def registry_invariant (st : TraderState) : Prop :=
  ∀ q ∈ st.monitored_markets, q.2.has_position = true → 0 < q.2.position_size

theorem entries_ok_set (l : List (String × MonitoredMarket)) (k : String)
    (v : MonitoredMarket)
    (h : ∀ q ∈ l, q.2.has_position = true → 0 < q.2.position_size)
    (hv : v.has_position = true → 0 < v.position_size) :
    ∀ q ∈ dict_set l k v, q.2.has_position = true → 0 < q.2.position_size := by
  intro q hq
  unfold dict_set at hq
  split at hq
  · rcases List.mem_map.mp hq with ⟨r, hr, hrq⟩
    subst hrq
    split
    · exact hv
    · exact h r hr
  · rcases List.mem_append.mp hq with hq | hq
    · exact h q hq
    · rw [List.mem_singleton.mp hq]
      exact hv

theorem entries_ok_update (l : List (String × MonitoredMarket)) (k : String)
    (f : MonitoredMarket → MonitoredMarket)
    (h : ∀ q ∈ l, q.2.has_position = true → 0 < q.2.position_size)
    (hf : ∀ m : MonitoredMarket, (f m).has_position = true → 0 < (f m).position_size) :
    ∀ q ∈ dict_update l k f, q.2.has_position = true → 0 < q.2.position_size := by
  intro q hq
  unfold dict_update at hq
  rcases List.mem_map.mp hq with ⟨r, hr, hrq⟩
  subst hrq
  split
  · exact hf r.2
  · exact h r hr

/-- A limit-order placement that returns an order returns one with a
strictly positive size (the source rejects size ≤ 0 before submitting). -/
theorem place_order_order_size_pos (ci : Bool) (tok : String) (side : OrderSide)
    (price amount : ℚ) (resp : ClobResponse) (fid : String) (ord : Order)
    (h : (place_order ci tok side price amount false resp fid).order = some ord) :
    0 < ord.size := by
  unfold place_order at h
  by_cases h1 : ¬ ci = true
  · rw [if_pos h1] at h; exact absurd h (by simp)
  · rw [if_neg h1] at h
    by_cases h2 : tok = ""
    · rw [if_pos h2] at h; exact absurd h (by simp)
    · rw [if_neg h2] at h
      by_cases h3 : amount ≤ 0
      · rw [if_pos h3] at h; exact absurd h (by simp)
      · rw [if_neg h3, if_neg (by simp : ¬ (false = true))] at h
        by_cases h4 : price ≤ 0 ∨ price ≥ 100
        · rw [if_pos h4] at h; exact absurd h (by simp)
        · rw [if_neg h4] at h
          dsimp only at h
          by_cases h5 : price_to_decimal price ≤ 0 ∨ price_to_decimal price ≥ 1
          · rw [if_pos h5] at h; exact absurd h (by simp)
          · rw [if_neg h5] at h
            by_cases h6 : amount / price_to_decimal price ≤ 0
            · rw [if_pos h6] at h; exact absurd h (by simp)
            · rw [if_neg h6] at h
              cases resp with
              | no_response => exact absurd h (by simp)
              | error_resp msg => exact absurd h (by simp)
              | success d =>
                  dsimp only at h
                  injection h with h
                  subst h
                  exact not_le.mp h6

theorem execute_entry_invariant (cfg : TradingConfig) (st : TraderState)
    (market : Market) (p : ℚ) (o : EntryOracle) (now : ℚ)
    (h : registry_invariant st) :
    registry_invariant (execute_entry cfg st market p o now).1 := by
  unfold execute_entry
  dsimp only
  by_cases h1 : o.available_balance < cfg.order_amount
  · simp only [if_pos h1]; exact h
  · simp only [if_neg h1]
    by_cases h2 : position_value_sum st + cfg.order_amount > cfg.max_position_amount
    · simp only [if_pos h2]; exact h
    · simp only [if_neg h2]
      cases ho : (place_order true market.token_id .buy p cfg.order_amount false
          o.resp o.fresh_id).order with
      | none => exact h
      | some order0 =>
          dsimp only
          have hsz := place_order_order_size_pos _ _ _ _ _ _ _ _ ho
          have hupd : ∀ q ∈ dict_update st.monitored_markets market.id
              (fun m => { m with has_position := true, position_size := order0.size }),
              q.2.has_position = true → 0 < q.2.position_size :=
            entries_ok_update _ _ _ h (fun _ _ => hsz)
          by_cases h3 : ¬ o.db.save_order_ok = true
          · simp only [if_pos h3]; exact h
          · simp only [if_neg h3]
            by_cases h4 : ¬ o.db.save_position_ok = true
            · simp only [if_pos h4]; exact fun q hq => hupd q hq
            · simp only [if_neg h4]
              by_cases h5 : ¬ o.db.record_trade_ok = true
              · simp only [if_pos h5]; exact fun q hq => hupd q hq
              · simp only [if_neg h5]; exact fun q hq => hupd q hq

theorem execute_stop_loss_invariant (st : TraderState) (m : MonitoredMarket)
    (p : ℚ) (o : StopLossOracle) (now : ℚ) (h : registry_invariant st) :
    registry_invariant (execute_stop_loss st m p o now).1 := by
  unfold execute_stop_loss
  dsimp only
  cases hp : o.position_lookup with
  | none => exact h
  | some position =>
      cases ho : (place_order true m.token_id .sell p (m.position_size * p / 100) false
          o.resp o.fresh_id).order with
      | none => exact h
      | some order0 =>
          dsimp only
          by_cases h3 : ¬ o.db.save_order_ok = true
          · simp only [if_pos h3]; exact h
          · simp only [if_neg h3]
            by_cases h4 : ¬ o.db.save_position_ok = true
            · simp only [if_pos h4]; exact fun q hq => h q hq
            · simp only [if_neg h4]
              by_cases h5 : ¬ o.db.record_trade_ok = true
              · simp only [if_pos h5]; exact fun q hq => h q hq
              · simp only [if_neg h5]
                intro q hq hqp
                dsimp only at hq
                exact entries_ok_update _ _ _ h
                  (fun mm hmm => absurd hmm (by simp)) q hq hqp

theorem check_price_one_invariant (cfg : TradingConfig) (st : TraderState)
    (mid : String) (o : MonitorOracle) (now : ℚ) (h : registry_invariant st) :
    registry_invariant (check_price_one cfg st mid o now).1 := by
  unfold check_price_one
  dsimp only
  cases hg : dict_get st.monitored_markets mid with
  | none => exact h
  | some monitored =>
      have hmem : ∃ r ∈ st.monitored_markets, r.2 = monitored := by
        unfold dict_get at hg
        cases hf : st.monitored_markets.find? (fun q => q.1 == mid) with
        | none => rw [hf] at hg; simp at hg
        | some r =>
            rw [hf] at hg
            exact ⟨r, List.mem_of_find?_eq_some hf, by simpa using hg⟩
      have hmon_sz : monitored.has_position = true → 0 < monitored.position_size := by
        rcases hmem with ⟨r, hr, hr2⟩
        intro hp
        have := h r hr
        rw [hr2] at this
        exact this hp
      by_cases hb : (!monitored.is_monitoring || !monitored.has_position) = true
      · simp only [if_pos hb]; exact h
      · simp only [if_neg hb]
        cases hgp : get_market_price monitored.token_id o.book with
        | none => exact h
        | some price_data =>
            dsimp only
            have hset : ∀ q ∈ dict_set st.monitored_markets mid
                { monitored with current_price := price_data.price, last_check := now },
                q.2.has_position = true → 0 < q.2.position_size :=
              entries_ok_set _ _ _ h (fun hp => hmon_sz hp)
            by_cases hc : price_data.price ≤ monitored.stop_loss_price
            · simp only [if_pos hc]
              by_cases hd : cfg.auto_trading_enabled = true
              · simp only [if_pos hd]
                exact execute_stop_loss_invariant _ _ _ _ _ (fun q hq => hset q hq)
              · simp only [if_neg hd]; exact fun q hq => hset q hq
            · simp only [if_neg hc]; exact fun q hq => hset q hq

theorem scan_market_one_invariant (cfg : TradingConfig) (st : TraderState)
    (market : Market) (o : EntryOracle) (now : ℚ) (h : registry_invariant st) :
    registry_invariant (scan_market_one cfg st market o now).1 := by
  unfold scan_market_one
  dsimp only
  by_cases h1 : market.yes_price * 100 < cfg.entry_price
  · simp only [if_pos h1]; exact h
  · simp only [if_neg h1]
    by_cases h2 : st.processed_markets.contains market.id = true
    · simp only [if_pos h2]; exact h
    · simp only [if_neg h2]
      by_cases h3 : (dict_get st.monitored_markets market.id).any
          (fun m => m.has_position) = true
      · simp only [if_pos h3]; exact h
      · simp only [if_neg h3]
        by_cases h4 : cfg.max_open_positions ≤
            (st.monitored_markets.filter (fun q => q.2.has_position)).length
        · simp only [if_pos h4]; exact h
        · simp only [if_neg h4]
          have hset : ∀ q ∈ dict_set st.monitored_markets market.id
              { market_id := market.id, token_id := market.token_id,
                market_question := market.question, entry_price := cfg.entry_price,
                stop_loss_price := cfg.stop_loss_price,
                current_price := market.yes_price * 100, last_check := now,
                created_at := now },
              q.2.has_position = true → 0 < q.2.position_size :=
            entries_ok_set _ _ _ h (fun hp => absurd hp (by simp))
          by_cases h5 : cfg.auto_trading_enabled = true
          · simp only [if_pos h5]
            exact execute_entry_invariant _ _ _ _ _ _ (fun q hq => hset q hq)
          · simp only [if_neg h5]; exact fun q hq => hset q hq

theorem manual_sell_invariant (st : TraderState) (mid : String)
    (o : ManualSellOracle) (now : ℚ) (h : registry_invariant st) :
    registry_invariant (manual_sell st mid o now).1 := by
  unfold manual_sell
  dsimp only
  cases hg : dict_get st.monitored_markets mid with
  | none => exact h
  | some monitored =>
      cases hp : o.position_lookup with
      | none => exact h
      | some position =>
          dsimp only
          cases ho : (place_order true monitored.token_id .sell
              (match get_market_price monitored.token_id o.book with
                | some pd => pd.price
                | none => monitored.current_price)
              (monitored.position_size *
                (match get_market_price monitored.token_id o.book with
                  | some pd => pd.price
                  | none => monitored.current_price) / 100) false
              o.resp o.fresh_id).order with
          | none => exact h
          | some order0 =>
              dsimp only
              by_cases h3 : ¬ o.db.save_order_ok = true
              · simp only [if_pos h3]; exact h
              · simp only [if_neg h3]
                by_cases h4 : ¬ o.db.save_position_ok = true
                · simp only [if_pos h4]; exact fun q hq => h q hq
                · simp only [if_neg h4]
                  by_cases h5 : ¬ o.db.record_trade_ok = true
                  · simp only [if_pos h5]; exact fun q hq => h q hq
                  · simp only [if_neg h5]
                    intro q hq hqp
                    dsimp only at hq
                    exact entries_ok_update _ _ _ h
                      (fun mm hmm => absurd hmm (by simp)) q hq hqp

theorem manual_buy_limit_invariant (cfg : TradingConfig) (st : TraderState)
    (mbid mbtok mbq : String) (mbprice mbamount : ℚ) (mbo : ManualBuyOracle)
    (now : ℚ) (h : registry_invariant st) :
    registry_invariant
      (manual_buy cfg st mbid mbtok mbprice mbamount mbq false mbo now).1 := by
  unfold manual_buy
  dsimp only
  cases ho : (place_order true mbtok .buy mbprice mbamount false
      mbo.resp mbo.fresh_id).order with
  | none => exact h
  | some order0 =>
      have hsz := place_order_order_size_pos _ _ _ _ _ _ _ _ ho
      have hset : ∀ q ∈ dict_set st.monitored_markets mbid
          { market_id := mbid, token_id := mbtok, market_question := mbq,
            entry_price := mbprice, stop_loss_price := cfg.stop_loss_price,
            current_price := mbprice, has_position := true,
            position_size := order0.size, last_check := now, created_at := now },
          q.2.has_position = true → 0 < q.2.position_size :=
        entries_ok_set _ _ _ h (fun _ => hsz)
      by_cases h3 : ¬ mbo.db.save_order_ok = true
      · simp only [if_pos h3]; exact h
      · simp only [if_neg h3]
        by_cases h4 : ¬ mbo.db.save_position_ok = true
        · simp only [if_pos h4]; exact fun q hq => hset q hq
        · simp only [if_neg h4]
          by_cases h5 : ¬ mbo.db.record_trade_ok = true
          · simp only [if_pos h5]; exact fun q hq => hset q hq
          · simp only [if_neg h5]; exact fun q hq => hset q hq

/-- A market-order submission with an empty success payload yields the
order the source builds with size 0 (both size and filledSize absent
default to 0, and the source keeps 0 when no positive size is reported). -/
theorem place_order_market_empty (tok : String) (side : OrderSide) (p a : ℚ)
    (fid : String) (htok : ¬ tok = "") (ha : 0 < a) :
    place_order true tok side p a true (.success {}) fid =
      ⟨true, some { id := fid, market_id := "", token_id := tok, side := side,
                    price := p, size := 0, amount := a, status := .opn }⟩ := by
  unfold place_order RespData.order_id_of
  rw [if_neg (by simp), if_neg htok, if_neg (not_le.mpr ha), if_pos rfl]
  norm_num

/-- Monitored-market entry created by the market-order counterexample. -/
def market_buy_bad_monitored : MonitoredMarket :=
  { market_id := "m1", token_id := "tok", market_question := "q",
    entry_price := 50, stop_loss_price := 85, current_price := 50,
    has_position := true, position_size := 0 }

/-- C6 counterexample: from the empty registry, where the invariant
holds, a manual buy placed as a market order whose exchange response
carries no fill-size information registers has_position = true with
position_size = 0, so the claim quantified over all operations including
manual market-order buys is false. -/
theorem registry_invariant_broken_by_market_order_buy :
    registry_invariant ⟨[], [], 0⟩ ∧
    ¬ registry_invariant
      (manual_buy {} ⟨[], [], 0⟩ "m1" "tok" 50 10 "q" true
        { resp := .success {} } 0).1 := by
  constructor
  · intro q hq
    simp at hq
  · intro hinv
    have hpo := place_order_market_empty "tok" OrderSide.buy 50 10 ""
      (by decide) (by norm_num)
    have hrun : (manual_buy ({} : TradingConfig) ⟨[], [], 0⟩ "m1" "tok" 50 10 "q" true
        { resp := .success {} } 0).1.monitored_markets =
        [("m1", market_buy_bad_monitored)] := by
      unfold manual_buy
      rw [hpo]
      norm_num [dict_set, market_buy_bad_monitored]
    have h2 := hinv ("m1", market_buy_bad_monitored)
      (by rw [hrun]; exact List.mem_singleton_self _) rfl
    norm_num [market_buy_bad_monitored] at h2

/-- C6 as amended: every scheduler operation — scan-step entry,
monitor-step stop-loss, direct entry and stop-loss execution, manual
sell, and manual buy with a limit order — preserves the registry
invariant that has_position implies position_size > 0; manual buy with a
market order is excluded, since a market-order response without a
positive fill size registers a position of size 0. -/
theorem registry_invariant_preserved (cfg : TradingConfig) (st : TraderState)
    (market : Market) (p : ℚ) (o : EntryOracle) (mid : String) (mo : MonitorOracle)
    (m : MonitoredMarket) (so : StopLossOracle) (msid : String)
    (mso : ManualSellOracle) (mbid mbtok mbq : String) (mbprice mbamount : ℚ)
    (mbo : ManualBuyOracle) (now : ℚ) (h : registry_invariant st) :
    registry_invariant (scan_market_one cfg st market o now).1 ∧
    registry_invariant (check_price_one cfg st mid mo now).1 ∧
    registry_invariant (execute_entry cfg st market p o now).1 ∧
    registry_invariant (execute_stop_loss st m p so now).1 ∧
    registry_invariant (manual_sell st msid mso now).1 ∧
    registry_invariant
      (manual_buy cfg st mbid mbtok mbprice mbamount mbq false mbo now).1 :=
  ⟨scan_market_one_invariant _ _ _ _ _ h, check_price_one_invariant _ _ _ _ _ h,
   execute_entry_invariant _ _ _ _ _ _ h, execute_stop_loss_invariant _ _ _ _ _ h,
   manual_sell_invariant _ _ _ _ h, manual_buy_limit_invariant _ _ _ _ _ _ _ _ _ h⟩

/-- Witness for registry_invariant_preserved on the sample one-market
state. -/
theorem registry_invariant_preserved_witness :
    registry_invariant (manual_sell sample_state "m1"
      { position_lookup := none, book := none, resp := .no_response } 0).1 :=
  (registry_invariant_preserved {} sample_state
    { id := "m1", question := "q", yes_price := 95/100, token_id := "tok" } 50
    { available_balance := 100, resp := .no_response } "m1"
    { book := none, sl := sample_sl_oracle } sample_monitored sample_sl_oracle "m1"
    { position_lookup := none, book := none, resp := .no_response }
    "m2" "tok2" "q2" 50 10 { resp := .no_response } 0
    (by
      intro q hq hp
      simp only [sample_state] at hq
      rw [List.mem_singleton.mp hq]
      norm_num [sample_monitored])).2.2.2.2.1

/-! Entry partial-failure behaviour (C4). -/

/-- State used by the C4 counterexample: one registered market without a
position yet. -/
def entry_cx_state : TraderState :=
  ⟨[("m1", { market_id := "m1", token_id := "tok", market_question := "q",
             entry_price := 90, stop_loss_price := 85, current_price := 95 })], [], 0⟩

/-- Market used by the C4 counterexample. -/
def entry_cx_market : Market :=
  { id := "m1", question := "q", yes_price := 1/2, token_id := "tok" }

/-- Oracle used by the C4 counterexample: order accepted, but the
save-position database call raises. -/
def entry_cx_oracle : EntryOracle :=
  { available_balance := 100, resp := .success {},
    db := { save_position_ok := false } }

/-- C4 counterexample: when the order succeeds and a later persistence
step (save_position) raises, the exception is caught (notify_error
emitted) yet the order was already persisted and the registry entry
already set has_position = true — so the claim that any exception leaves
all state unchanged and nothing persisted is false. -/
theorem entry_exception_partial_commit :
    Effect.notify_error "entry_failed" ∈
      (execute_entry {} entry_cx_state entry_cx_market 50 entry_cx_oracle 0).2 ∧
    Effect.save_order
      { id := "", market_id := "", token_id := "tok", side := .buy, price := 50,
        size := 20, amount := 10, status := .opn, trigger_type := some .entry } ∈
      (execute_entry {} entry_cx_state entry_cx_market 50 entry_cx_oracle 0).2 ∧
    dict_get
      (execute_entry {} entry_cx_state entry_cx_market 50 entry_cx_oracle 0).1.monitored_markets
      "m1" =
      some { market_id := "m1", token_id := "tok", market_question := "q",
             entry_price := 90, stop_loss_price := 85, current_price := 95,
             has_position := true, position_size := 20 } ∧
    dict_get entry_cx_state.monitored_markets "m1" =
      some { market_id := "m1", token_id := "tok", market_question := "q",
             entry_price := 90, stop_loss_price := 85, current_price := 95 } := by
  have hpo : place_order true "tok" OrderSide.buy 50 10 false (.success {}) "" =
      ⟨true, some { id := "", market_id := "", token_id := "tok", side := .buy,
                    price := 50, size := 20, amount := 10, status := .opn }⟩ := by
    rw [place_order_limit_success "tok" OrderSide.buy 50 10 {} "" (by decide)
      (by norm_num) (by norm_num) (by norm_num)]
    norm_num [price_to_decimal, RespData.order_id_of]
  have hrun : execute_entry {} entry_cx_state entry_cx_market 50 entry_cx_oracle 0 =
      (⟨[("m1", { market_id := "m1", token_id := "tok", market_question := "q",
                  entry_price := 90, stop_loss_price := 85, current_price := 95,
                  has_position := true, position_size := 20 })], [], 0⟩,
       [.place_order_call "tok" .buy 50 10 false,
        .save_order
          { id := "", market_id := "", token_id := "tok", side := .buy, price := 50,
            size := 20, amount := 10, status := .opn, trigger_type := some .entry },
        .notify_error "entry_failed"]) := by
    unfold execute_entry
    dsimp only [entry_cx_state, entry_cx_market, entry_cx_oracle]
    rw [hpo]
    norm_num [position_value_sum, dict_update]
  rw [hrun]
  refine ⟨by simp, by simp, ?_, by norm_num [entry_cx_state, dict_get]⟩
  norm_num [dict_get]

/-- C4 as amended: entry execution always returns (exceptions are
absorbed), and no state mutation commits before the order succeeds: if
order submission returns null, or if the first post-order step
(save_order) raises, the state is unchanged and every effect performed is
either the order-submission call itself or the best-effort error
notification — nothing is persisted and nothing is added to the
processed set. Once the order has succeeded, mutations commit in source
order, so an exception in a later step can leave earlier mutations in
place. -/
theorem entry_no_commit_before_order_success (cfg : TradingConfig)
    (st : TraderState) (market : Market) (p : ℚ) (o : EntryOracle) (now : ℚ)
    (h : (place_order true market.token_id .buy p cfg.order_amount false
        o.resp o.fresh_id).order = none ∨ o.db.save_order_ok = false) :
    (execute_entry cfg st market p o now).1 = st ∧
    ∀ e ∈ (execute_entry cfg st market p o now).2,
      (∃ tok sd pr am mo, e = Effect.place_order_call tok sd pr am mo) ∨
      e = Effect.notify_error "entry_failed" := by
  unfold execute_entry
  dsimp only
  by_cases h1 : o.available_balance < cfg.order_amount
  · simp only [if_pos h1]
    exact ⟨by trivial, by intro e he; simp at he⟩
  · simp only [if_neg h1]
    by_cases h2 : position_value_sum st + cfg.order_amount > cfg.max_position_amount
    · simp only [if_pos h2]
      exact ⟨by trivial, by intro e he; simp at he⟩
    · simp only [if_neg h2]
      rcases h with h | h
      · rw [h]
        refine ⟨rfl, ?_⟩
        intro e he
        dsimp only at he
        split at he
        · rw [List.mem_singleton.mp he]
          exact Or.inl ⟨_, _, _, _, _, rfl⟩
        · simp at he
      · cases ho : (place_order true market.token_id .buy p cfg.order_amount false
            o.resp o.fresh_id).order with
        | none =>
            refine ⟨rfl, ?_⟩
            intro e he
            dsimp only at he
            split at he
            · rw [List.mem_singleton.mp he]
              exact Or.inl ⟨_, _, _, _, _, rfl⟩
            · simp at he
        | some order0 =>
            dsimp only
            rw [if_pos (by simp [h] : ¬ o.db.save_order_ok = true)]
            refine ⟨rfl, ?_⟩
            intro e he
            rcases List.mem_append.mp he with he | he
            · revert he
              split
              · intro he
                rw [List.mem_singleton.mp he]
                exact Or.inl ⟨_, _, _, _, _, rfl⟩
              · intro he
                simp at he
            · rw [List.mem_singleton.mp he]
              exact Or.inr rfl

/-- Witness for entry_no_commit_before_order_success: no response from
the exchange leaves the state unchanged. -/
theorem entry_no_commit_before_order_success_witness :
    (execute_entry {} ⟨[], [], 0⟩ entry_cx_market 50
      { available_balance := 100, resp := .no_response } 0).1 = ⟨[], [], 0⟩ ∧
    ∀ e ∈ (execute_entry {} ⟨[], [], 0⟩ entry_cx_market 50
      { available_balance := 100, resp := .no_response } 0).2,
      (∃ tok sd pr am mo, e = Effect.place_order_call tok sd pr am mo) ∨
      e = Effect.notify_error "entry_failed" :=
  entry_no_commit_before_order_success {} ⟨[], [], 0⟩ entry_cx_market 50
    { available_balance := 100, resp := .no_response } 0
    (Or.inl (by unfold place_order; dsimp only; split_ifs <;> rfl))

end PolySport
